import Mathlib

/-!
Verification of the breakdown-lookup tool (`main.py`, `mistral_server.py`).

The development shallowly embeds the query-normalization, matching,
suggestion-building and prompt-construction routines of `main.py`, and the
language-model client of `mistral_server.py`.  Cell values are modelled as
`Option String`: `none` stands for a missing value (pandas `NaN`), `some s`
for a string value.  Python's `str(..)` conversion of a missing value yields
the string "nan", which `cellStr` reproduces.  Python string lowering is
modelled on the ASCII range (the only range the dataset and the claims
exercise), matching `Char.toLower`.
-/

namespace Flender

deriving instance DecidableEq for Except

/-- A dataset cell: `none` models a missing value (pandas `NaN`). -/
abbrev Cell : Type := Option String

/-- One row of the dataset: an ordered mapping from column name to cell,
as a pandas row indexed by the dataset's columns. -/
abbrev Record : Type := List (String × Cell)

/-- The loaded dataset: ordered column names and ordered rows. -/
structure Dataset where
  cols : List String
  rows : List Record

/-- A dataset is well formed when every entry of every row is labelled by a
dataset column (a pandas DataFrame row carries exactly the frame's columns). -/
def DatasetWF (d : Dataset) : Prop :=
  ∀ r ∈ d.rows, ∀ e ∈ r, d.cols.contains e.1 = true

instance (d : Dataset) : Decidable (DatasetWF d) := by
  unfold DatasetWF; infer_instance

/-- Python `str` of a cell value: a missing value (`NaN`) prints as "nan". -/
def cellStr : Cell → String
  | none => "nan"
  | some s => s

/-- The cell stored for column `c` in row `r`; `none` when the row has no
entry for `c` at all (column absent from the dataset). -/
def cellOf (r : Record) (c : String) : Cell :=
  (r.lookup c).join

/-- `row.get(c, dflt)` followed by `str(..)` (main.py lines 122-124): the
default is returned only when the label is absent; a present missing value
stringifies to "nan". -/
def getD (r : Record) (c : String) (dflt : String) : String :=
  match r.lookup c with
  | none => dflt
  | some cell => cellStr cell

/-- Is `c` one of `a`-`z`, `A`-`Z`, `0`-`9`?  The character class kept by
`re.sub(r'[^a-zA-Z0-9]', '', ...)` (main.py line 69), via code points. -/
def isAlnumA (c : Char) : Bool :=
  decide ((97 ≤ c.toNat ∧ c.toNat ≤ 122) ∨ (65 ≤ c.toNat ∧ c.toNat ≤ 90) ∨
    (48 ≤ c.toNat ∧ c.toNat ≤ 57))

/-- `normalize` (main.py lines 68-69): lower-case the string, then drop every
character outside `[a-zA-Z0-9]`. -/
def normalize (s : String) : String :=
  String.mk ((s.data.map Char.toLower).filter isAlnumA)

/-- Is `n` a prefix of `h`?  (List form of Python string prefix test.) -/
def prefB : List Char → List Char → Bool
  | [], _ => true
  | _ :: _, [] => false
  | a :: as, b :: bs => a == b && prefB as bs

/-- Does `n` occur as a contiguous substring of `h`?  (List form.) -/
def substrB : List Char → List Char → Bool
  | n, [] => prefB n []
  | n, b :: t => prefB n (b :: t) || substrB n t

/-- Python's `in` on strings: substring containment. -/
def isSubstrB (needle hay : String) : Bool :=
  substrB needle.data hay.data

/-- The per-row match test of the search loop (main.py lines 121-126):
`norm_final` against the normalized machine name, problem, and composed
"Problem by Machine Name" strings, missing labels defaulting to `''`. -/
def rowMatchB (norm_final : String) (row : Record) : Bool :=
  let machine_norm := normalize (getD row "Machine Name" "")
  let problem_norm := normalize (getD row "Problem" "")
  let combined_norm := normalize (getD row "Problem" "" ++ " by " ++ getD row "Machine Name" "")
  isSubstrB norm_final machine_norm || isSubstrB norm_final problem_norm ||
    isSubstrB norm_final combined_norm

/-- The `matched_rows` accumulation loop (main.py lines 117-127). -/
def matched_rows (d : Dataset) (q : String) : List Record :=
  let norm_final := normalize q
  d.rows.foldl (fun acc row => if rowMatchB norm_final row then acc ++ [row] else acc) []

/-- The search branch guard (main.py line 117): the search runs only when the
raw query string is non-empty; `none` is the "no search active" outcome. -/
def searchOutcome (d : Dataset) (q : String) : Option (List Record) :=
  if q = "" then none else some (matched_rows d q)

/-- First-seen deduplication: pandas `unique()` / `drop_duplicates()` keep the
first occurrence of each value, in encounter order. -/
def dedupFirst {α : Type} [DecidableEq α] : List α → List α
  | [] => []
  | x :: xs => x :: (dedupFirst xs).filter (fun y => decide (y ≠ x))

/-- The non-missing values of the "Machine Name" column, in dataset order
(`df['Machine Name'].dropna().astype(str)`, main.py line 92). -/
def machineNameVals (d : Dataset) : List String :=
  (d.rows.map (fun r => cellOf r "Machine Name")).filterMap id

/-- The rows of `df[['Problem', 'Machine Name']].dropna().astype(str)`
(main.py lines 96-97): the (Problem, Machine Name) pairs of the rows in which
both cells are present. -/
def problemPairs (d : Dataset) : List (String × String) :=
  (d.rows.map (fun r => (cellOf r "Problem", cellOf r "Machine Name"))).filterMap
    (fun pc =>
      match pc with
      | (some p, some m) => some (p, m)
      | _ => none)

/-- The suggestion list (main.py lines 89-101): unique machine names followed
by unique "Problem by Machine Name" pairs.  Column extraction on a missing
column raises a `KeyError` naming that column, modelled as `Except.error`;
line 92 touches "Machine Name" first, line 96 then needs "Problem". -/
def all_suggestions (d : Dataset) : Except String (List String) :=
  if d.cols.contains "Machine Name" = false then Except.error "Machine Name"
  else if d.cols.contains "Problem" = false then Except.error "Problem"
  else Except.ok (dedupFirst (machineNameVals d) ++
    (dedupFirst (problemPairs d)).map (fun pm => pm.1 ++ " by " ++ pm.2))

/-- The suggestion filter comprehension (main.py line 106). -/
def suggestionMatches (all_sugg : List String) (q : String) : List String :=
  let norm_query := normalize q
  all_sugg.filter (fun s => isSubstrB norm_query (normalize s))

/-- `filterSuggestions` of the spec: the matching suggestions capped at the
first 10 (`matches[:10]`, main.py line 110). -/
def filterSuggestions (all_sugg : List String) (q : String) : List String :=
  (suggestionMatches all_sugg q).take 10

/-- Occurrences of `a` in `l`. -/
def countEq {α : Type} [DecidableEq α] (a : α) (l : List α) : Nat :=
  (l.filter (fun y => decide (y = a))).length

/-- Stable descending insertion (by count) into an already sorted list. -/
def insertDesc {α : Type} (p : α × Nat) : List (α × Nat) → List (α × Nat)
  | [] => [p]
  | q :: qs => if q.2 < p.2 then p :: q :: qs else q :: insertDesc p qs

/-- Descending insertion sort by count. -/
def sortDesc {α : Type} (l : List (α × Nat)) : List (α × Nat) :=
  l.foldr insertDesc []

/-- Adjacent counts are non-increasing. -/
def descOK {α : Type} : List (α × Nat) → Bool
  | [] => true
  | [_] => true
  | p :: q :: r => decide (q.2 ≤ p.2) && descOK (q :: r)

/-- pandas `Series.value_counts()` (main.py line 140): one entry per distinct
value of the (already NaN-free) input with its occurrence count, sorted by
count in descending order. -/
def value_counts {α : Type} [DecidableEq α] (l : List α) : List (α × Nat) :=
  sortDesc ((dedupFirst l).map (fun k => (k, countEq k l)))

/-- Sum of the counts of a frequency table. -/
def sumCounts {α : Type} (l : List (α × Nat)) : Nat :=
  (l.map Prod.snd).sum

/-- Join with a separator, as rendered table rows are joined by newlines. -/
def joinSep (sep : String) : List String → String
  | [] => ""
  | [x] => x
  | x :: y :: xs => x ++ sep ++ joinSep sep (y :: xs)

/-- A cell as pandas `to_string` prints it. -/
def renderCell : Cell → String
  | none => "NaN"
  | some s => s

/-- One dataset row in the plain tabular rendering of `DataFrame.to_string`. -/
def renderRow (cols : List String) (r : Record) : String :=
  joinSep " " (cols.map (fun c => renderCell (cellOf r c)))

/-- `DataFrame.to_string(index=False)` (main.py lines 137 and 149), modelled as
a plain tabular rendering: the header line followed by one line per row. -/
def renderTable (cols : List String) (rows : List Record) : String :=
  joinSep " " cols ++ "\n" ++ joinSep "\n" (rows.map (renderRow cols))

/-- The rendered `Problem`/`Count` frequency table (main.py lines 140-142). -/
def renderCounts (l : List (String × Nat)) : String :=
  "Problem Count\n" ++ joinSep "\n" (l.map (fun pc => pc.1 ++ " " ++ Nat.repr pc.2))

/-- The single-match prompt (main.py lines 135-138). -/
def promptSingle (q : String) (cols : List String) (df_result : List Record) : String :=
  "Here is the data for query: \x27" ++ q ++
    "\x27. Explain the details and any insights.\n\n" ++ renderTable cols df_result

/-- The multi-match prompt (main.py lines 140-150): query, match count, the
rendered `Problem` frequency table, and the rendered matched rows.
`value_counts()` drops missing values, modelled by `filterMap id`. -/
def promptMulti (q : String) (cols : List String) (df_result : List Record) : String :=
  "The query \x27" ++ q ++ "\x27 matches " ++ Nat.repr df_result.length ++
    " rows. Analyze the problems, starting with the most common one. " ++
    "Provide possible causes, suggestions, and order them by frequency.\n\n" ++
    "Problem summary:\n" ++
    renderCounts (value_counts ((df_result.map (fun r => cellOf r "Problem")).filterMap id)) ++
    "\n\nDetails of matches:\n" ++ renderTable cols df_result

/-- The prompt construction branch (main.py lines 134-150).  `df_result` is
the list of matched rows; the multi-match branch reads `df_result['Problem']`,
which raises a `KeyError` when that column is absent (`Except.error`). -/
def user_prompt (q : String) (cols : List String) (df_result : List Record) :
    Except String String :=
  if df_result.length == 1 then
    Except.ok (promptSingle q cols df_result)
  else if cols.contains "Problem" = false then Except.error "Problem"
  else Except.ok (promptMulti q cols df_result)

/-- A Python exception relevant to the language-model client. -/
inductive PyError where
  | connectionError : PyError
  | keyError : String → PyError
deriving DecidableEq

/-- The behaviour of the inference endpoint for one request: `none` models a
connection-level failure of `requests.post` (connection refused, timeout);
`some body` models an HTTP reply whose JSON object is `body`. -/
abbrev ServerBehavior : Type := Option (List (String × String))

/-- `query_mistral` (mistral_server.py lines 3-11): posts the prompt and
returns `response.json()["response"]`.  There is no error handling: a
connection failure propagates the `requests` exception, and a reply without a
"response" field propagates `KeyError("response")`. -/
def query_mistral (server : ServerBehavior) (prompt : String) : Except PyError String :=
  match server with
  | none => Except.error PyError.connectionError
  | some body =>
    match body.lookup "response" with
    | none => Except.error (PyError.keyError "response")
    | some t => Except.ok t

/-- What one interaction turn ends as. -/
inductive Outcome where
  | displayed : String → Outcome
  | crashed : PyError → Outcome
deriving DecidableEq

/-- The call site (main.py lines 152-154): `query_mistral`'s result is shown
with `st.info`; the call is not wrapped in any handler, so a raised exception
aborts the script run. -/
def explainStep (server : ServerBehavior) (prompt : String) : Outcome :=
  match query_mistral server prompt with
  | Except.ok t => Outcome.displayed t
  | Except.error e => Outcome.crashed e

/-- The spec's matching predicate (spec section 4.3): `normalize(query)` is a
substring of the normalized machine name, normalized problem, or normalized
composed "Problem by Machine Name" string of the record. -/
def specMatch (q : String) (r : Record) : Bool :=
  isSubstrB (normalize q) (normalize (getD r "Machine Name" "")) ||
    isSubstrB (normalize q) (normalize (getD r "Problem" "")) ||
    isSubstrB (normalize q) (normalize (getD r "Problem" "" ++ " by " ++ getD r "Machine Name" ""))

/-! ### Concrete data for witnesses and counterexamples -/

/-- The end-to-end example dataset of spec section 8. -/
def exDataset : Dataset :=
  { cols := ["Machine Name", "Problem"],
    rows := [[("Machine Name", some "Press-1"), ("Problem", some "Overheat")],
             [("Machine Name", some "Press-1"), ("Problem", some "Jam")],
             [("Machine Name", some "Lathe-2"), ("Problem", some "Overheat")]] }

/-- A row whose `Problem` value is missing (`NaN`). -/
def nanRow : Record :=
  [("Machine Name", some "Press-2"), ("Problem", none)]

/-- A dataset in which one row has a missing `Problem` value. -/
def nanDataset : Dataset :=
  { cols := ["Machine Name", "Problem"],
    rows := [[("Machine Name", some "Press-1"), ("Problem", some "Overheat")],
             nanRow] }

/-- A dataset with neither of the matcher's special columns. -/
def bareDataset : Dataset :=
  { cols := ["Other"],
    rows := [[("Other", some "x")]] }

/-! ### Helper lemmas -/

theorem prefB_nil (h : List Char) : prefB [] h = true := by
  cases h <;> rfl

theorem substrB_nil (h : List Char) : substrB [] h = true := by
  induction h with
  | nil => rfl
  | cons b t ih => simp [substrB, prefB, ih]

theorem isSubstrB_of_nil {n : String} (hn : n.data = []) (h : String) :
    isSubstrB n h = true := by
  unfold isSubstrB
  rw [hn]
  exact substrB_nil h.data

theorem foldl_append_filter {α : Type} (p : α → Bool) (l : List α) (acc : List α) :
    l.foldl (fun a x => if p x then a ++ [x] else a) acc = acc ++ l.filter p := by
  induction l generalizing acc with
  | nil => simp
  | cons x xs ih =>
    cases hx : p x <;> simp [List.foldl_cons, hx, ih, List.filter_cons]

/-- The search loop is an order-preserving, duplication-preserving filter. -/
theorem matched_rows_eq_filter (d : Dataset) (q : String) :
    matched_rows d q = d.rows.filter (rowMatchB (normalize q)) := by
  unfold matched_rows
  rw [foldl_append_filter]
  rfl

theorem rowMatchB_of_norm_nil {q : String} (hq : (normalize q).data = [])
    (r : Record) : rowMatchB (normalize q) r = true := by
  simp [rowMatchB, isSubstrB_of_nil hq]

theorem matched_rows_of_norm_empty {q : String} (hq : normalize q = "")
    (d : Dataset) : matched_rows d q = d.rows := by
  rw [matched_rows_eq_filter]
  apply List.filter_eq_self.mpr
  intro r _
  exact rowMatchB_of_norm_nil (by rw [hq]) r

theorem char_toNat_ofNat_valid {n : Nat} (h : n < 55296) :
    (Char.ofNat n).toNat = n := by
  rw [Char.ofNat, dif_pos (Or.inl h)]
  rfl

theorem toLower_toLower (c : Char) : c.toLower.toLower = c.toLower := by
  simp only [Char.toLower]
  by_cases h : c.toNat ≥ 65 ∧ c.toNat ≤ 90
  · rw [if_pos h]
    have hm : (Char.ofNat (c.toNat + 32)).toNat = c.toNat + 32 :=
      char_toNat_ofNat_valid (by omega)
    rw [if_neg (by rw [hm]; omega)]
  · rw [if_neg h, if_neg h]

/-- `normalize` is idempotent. -/
theorem normalize_normalize (s : String) : normalize (normalize s) = normalize s := by
  unfold normalize
  refine congrArg String.mk ?_
  have hmap : ((s.data.map Char.toLower).filter isAlnumA).map Char.toLower
      = (s.data.map Char.toLower).filter isAlnumA := by
    have : ∀ d ∈ (s.data.map Char.toLower).filter isAlnumA, Char.toLower d = id d := by
      intro d hd
      have hd2 : d ∈ s.data.map Char.toLower := (List.mem_filter.mp hd).1
      obtain ⟨c, _, hc⟩ := List.mem_map.mp hd2
      rw [← hc]
      exact toLower_toLower c
    rw [List.map_congr_left this, List.map_id]
  rw [show (String.mk ((s.data.map Char.toLower).filter isAlnumA)).data
      = (s.data.map Char.toLower).filter isAlnumA from rfl]
  rw [hmap]
  apply List.filter_eq_self.mpr
  intro d hd
  exact (List.mem_filter.mp hd).2

theorem mem_dedupFirst {α : Type} [DecidableEq α] {a : α} :
    ∀ {l : List α}, a ∈ dedupFirst l ↔ a ∈ l
  | [] => Iff.rfl
  | x :: xs => by
    simp only [dedupFirst, List.mem_cons, List.mem_filter]
    constructor
    · rintro (rfl | ⟨h1, _⟩)
      · exact Or.inl rfl
      · exact Or.inr (mem_dedupFirst.mp h1)
    · rintro (rfl | h)
      · exact Or.inl rfl
      · by_cases hax : a = x
        · exact Or.inl hax
        · exact Or.inr ⟨mem_dedupFirst.mpr h, by simpa using hax⟩

theorem nodup_dedupFirst {α : Type} [DecidableEq α] :
    ∀ (l : List α), (dedupFirst l).Nodup
  | [] => List.nodup_nil
  | x :: xs => by
    simp only [dedupFirst]
    refine List.Nodup.cons ?_ (List.Nodup.filter _ (nodup_dedupFirst xs))
    intro hx
    have := (List.mem_filter.mp hx).2
    simp at this

theorem filter_idem {α : Type} (p : α → Bool) (l : List α) :
    (l.filter p).filter p = l.filter p := by
  rw [List.filter_filter]
  exact List.filter_congr (fun a _ => by cases h : p a <;> simp [h])

theorem dedupFirst_filter_comm {α : Type} [DecidableEq α] (x : α) :
    ∀ (l : List α),
      (dedupFirst l).filter (fun y => decide (y ≠ x))
        = dedupFirst (l.filter (fun y => decide (y ≠ x)))
  | [] => rfl
  | y :: ys => by
    by_cases hyx : y = x
    · subst hyx
      simp only [dedupFirst, List.filter_cons]
      rw [if_neg (by simp), if_neg (by simp)]
      rw [filter_idem]
      exact dedupFirst_filter_comm y ys
    · simp only [dedupFirst, List.filter_cons]
      rw [if_pos (by simpa using hyx), if_pos (by simpa using hyx)]
      simp only [dedupFirst]
      congr 1
      rw [List.filter_comm]
      rw [dedupFirst_filter_comm x ys]

/-- `dedupFirst` keeps the head and recurses on the tail with the head's other
occurrences removed. -/
theorem dedupFirst_cons {α : Type} [DecidableEq α] (x : α) (xs : List α) :
    dedupFirst (x :: xs) = x :: dedupFirst (xs.filter (fun y => decide (y ≠ x))) := by
  simp only [dedupFirst]
  rw [dedupFirst_filter_comm]

theorem countEq_cons_self {α : Type} [DecidableEq α] (a : α) (l : List α) :
    countEq a (a :: l) = countEq a l + 1 := by
  simp [countEq, List.filter_cons]

theorem countEq_cons_ne {α : Type} [DecidableEq α] {a b : α} (h : b ≠ a) (l : List α) :
    countEq a (b :: l) = countEq a l := by
  simp [countEq, List.filter_cons, h]

theorem countEq_filter_ne {α : Type} [DecidableEq α] {a x : α} (h : a ≠ x) :
    ∀ (l : List α), countEq a (l.filter (fun y => decide (y ≠ x))) = countEq a l
  | [] => rfl
  | y :: ys => by
    by_cases hyx : y = x
    · subst hyx
      rw [List.filter_cons, if_neg (by simp), countEq_cons_ne (Ne.symm (by simpa using h)), countEq_filter_ne h ys]
    · by_cases hya : y = a
      · subst hya
        rw [List.filter_cons, if_pos (by simpa using hyx), countEq_cons_self,
          countEq_cons_self, countEq_filter_ne h ys]
      · rw [List.filter_cons]
        by_cases hk : decide (y ≠ x) = true
        · rw [if_pos hk, countEq_cons_ne hya, countEq_cons_ne hya, countEq_filter_ne h ys]
        · rw [if_neg hk, countEq_cons_ne hya, countEq_filter_ne h ys]

theorem length_eq_countEq_add_filter {α : Type} [DecidableEq α] (x : α) :
    ∀ (l : List α), l.length = countEq x l + (l.filter (fun y => decide (y ≠ x))).length
  | [] => rfl
  | y :: ys => by
    by_cases hyx : y = x
    · subst hyx
      rw [List.filter_cons, if_neg (by simp), countEq_cons_self]
      have := length_eq_countEq_add_filter y ys
      simp only [List.length_cons]
      omega
    · rw [List.filter_cons, if_pos (by simpa using hyx), countEq_cons_ne hyx]
      have := length_eq_countEq_add_filter x ys
      simp only [List.length_cons]
      omega

theorem sumCounts_cons {α : Type} (p : α × Nat) (l : List (α × Nat)) :
    sumCounts (p :: l) = p.2 + sumCounts l := by
  simp [sumCounts]

/-- The counts of the distinct values of a list add up to its length. -/
theorem sumCounts_dedupFirst_countEq {α : Type} [DecidableEq α] :
    ∀ (n : Nat) (l : List α), l.length ≤ n →
      sumCounts ((dedupFirst l).map (fun k => (k, countEq k l))) = l.length
  | _, [], _ => rfl
  | 0, x :: xs, h => by simp at h
  | n + 1, x :: xs, h => by
    rw [dedupFirst_cons, List.map_cons, sumCounts_cons, countEq_cons_self]
    have hmap : (dedupFirst (xs.filter (fun y => decide (y ≠ x)))).map
        (fun k => (k, countEq k (x :: xs)))
        = (dedupFirst (xs.filter (fun y => decide (y ≠ x)))).map
          (fun k => (k, countEq k (xs.filter (fun y => decide (y ≠ x))))) := by
      apply List.map_congr_left
      intro k hk
      have hk2 : k ∈ xs.filter (fun y => decide (y ≠ x)) := mem_dedupFirst.mp hk
      have hkx : k ≠ x := by simpa using (List.mem_filter.mp hk2).2
      rw [countEq_cons_ne (Ne.symm hkx), countEq_filter_ne hkx]
    rw [hmap]
    rw [sumCounts_dedupFirst_countEq n (xs.filter (fun y => decide (y ≠ x)))
      (Nat.le_trans (List.length_filter_le _ _) (Nat.le_of_succ_le_succ h))]
    have := length_eq_countEq_add_filter x xs
    simp only [List.length_cons]
    omega

theorem sumCounts_insertDesc {α : Type} (p : α × Nat) :
    ∀ (l : List (α × Nat)), sumCounts (insertDesc p l) = p.2 + sumCounts l
  | [] => by simp [insertDesc, sumCounts]
  | q :: qs => by
    simp only [insertDesc]
    by_cases h : q.2 < p.2
    · rw [if_pos h, sumCounts_cons]
    · rw [if_neg h, sumCounts_cons, sumCounts_insertDesc p qs, sumCounts_cons]
      omega

theorem sumCounts_sortDesc {α : Type} :
    ∀ (l : List (α × Nat)), sumCounts (sortDesc l) = sumCounts l
  | [] => rfl
  | p :: ps => by
    simp only [sortDesc, List.foldr_cons]
    rw [sumCounts_insertDesc, sumCounts_cons]
    have : List.foldr insertDesc [] ps = sortDesc ps := rfl
    rw [this, sumCounts_sortDesc ps]

theorem descOK_cons_of_le {α : Type} {p q : α × Nat} {l : List (α × Nat)}
    (hle : q.2 ≤ p.2) (h : descOK (q :: l) = true) : descOK (p :: q :: l) = true := by
  simp only [descOK]
  rw [h]
  simp [hle]

theorem descOK_tail {α : Type} {p : α × Nat} {l : List (α × Nat)}
    (h : descOK (p :: l) = true) : descOK l = true := by
  cases l with
  | nil => rfl
  | cons q qs =>
    simp only [descOK, Bool.and_eq_true] at h
    exact h.2

theorem descOK_insertDesc_cons {α : Type} (p : α × Nat) :
    ∀ (l : List (α × Nat)) (q : α × Nat), descOK (q :: l) = true → p.2 ≤ q.2 →
      descOK (q :: insertDesc p l) = true
  | [], q, _, hpq => by simp [insertDesc, descOK, hpq]
  | r :: rs, q, h, hpq => by
    have hrq : r.2 ≤ q.2 := by
      simp only [descOK, Bool.and_eq_true, decide_eq_true_eq] at h
      exact h.1
    have hrs : descOK (r :: rs) = true := descOK_tail h
    simp only [insertDesc]
    by_cases hc : r.2 < p.2
    · rw [if_pos hc]
      exact descOK_cons_of_le hpq (descOK_cons_of_le (Nat.le_of_lt hc) hrs)
    · rw [if_neg hc]
      exact descOK_cons_of_le hrq
        (descOK_insertDesc_cons p rs r hrs (Nat.le_of_not_lt hc))

theorem descOK_insertDesc {α : Type} (p : α × Nat) {l : List (α × Nat)}
    (h : descOK l = true) : descOK (insertDesc p l) = true := by
  cases l with
  | nil => rfl
  | cons q qs =>
    simp only [insertDesc]
    by_cases hc : q.2 < p.2
    · rw [if_pos hc]
      exact descOK_cons_of_le (Nat.le_of_lt hc) h
    · rw [if_neg hc]
      exact descOK_insertDesc_cons p qs q h (Nat.le_of_not_lt hc)

theorem descOK_sortDesc {α : Type} : ∀ (l : List (α × Nat)), descOK (sortDesc l) = true
  | [] => rfl
  | p :: ps => by
    simp only [sortDesc, List.foldr_cons]
    exact descOK_insertDesc p (descOK_sortDesc ps)

/-- `value_counts` is sorted by descending count. -/
theorem descOK_value_counts {α : Type} [DecidableEq α] (l : List α) :
    descOK (value_counts l) = true :=
  descOK_sortDesc _

/-- The counts of `value_counts` sum to the length of its input. -/
theorem sumCounts_value_counts {α : Type} [DecidableEq α] (l : List α) :
    sumCounts (value_counts l) = l.length := by
  unfold value_counts
  rw [sumCounts_sortDesc]
  exact sumCounts_dedupFirst_countEq l.length l (Nat.le_refl _)

theorem mem_of_lookup_some {α β : Type} [BEq α] [LawfulBEq α]
    {l : List (α × β)} {a : α} {b : β} (h : l.lookup a = some b) : (a, b) ∈ l := by
  obtain ⟨l1, l2, rfl, -⟩ := List.lookup_eq_some_iff.mp h
  simp

/-- Every member of a separator-joined list occurs inside the joined string. -/
theorem joinSep_decomp (sep : String) :
    ∀ (l : List String) (x : String), x ∈ l → ∃ a b, joinSep sep l = a ++ x ++ b
  | [], x, hx => absurd hx (List.not_mem_nil x)
  | [y], x, hx => by
    have hxy : x = y := by simpa using hx
    subst hxy
    exact ⟨"", "", by simp [joinSep]⟩
  | y :: z :: zs, x, hx => by
    rcases List.mem_cons.mp hx with hxy | hxtail
    · subst hxy
      exact ⟨"", sep ++ joinSep sep (z :: zs), by simp [joinSep, String.append_assoc]⟩
    · obtain ⟨a, b, hab⟩ := joinSep_decomp sep (z :: zs) x hxtail
      exact ⟨y ++ sep ++ a, b, by simp [joinSep, hab, String.append_assoc]⟩

theorem length_filterMap_id_all_some :
    ∀ (l : List Cell), (∀ c ∈ l, c.isSome = true) → (l.filterMap id).length = l.length
  | [], _ => rfl
  | c :: t, h => by
    cases c with
    | none => exact absurd (h none (List.mem_cons_self _ _)) (by simp)
    | some s =>
      simp only [List.filterMap_cons, id]
      simp only [List.length_cons]
      rw [length_filterMap_id_all_some t (fun c hc => h c (List.mem_cons_of_mem _ hc))]

theorem join_eq_some {α : Type} {x : Option (Option α)} {a : α}
    (h : x.join = some a) : x = some (some a) := by
  rcases x with _ | y
  · simp at h
  · rcases y with _ | b
    · simp at h
    · simpa using h

theorem prefB_nil_right : ∀ (n : List Char), prefB n [] = true ↔ n = []
  | [] => by simp [prefB]
  | a :: as => by simp [prefB]

theorem isSubstrB_empty_hay {n : String} : isSubstrB n "" = true ↔ n.data = [] := by
  unfold isSubstrB substrB
  exact prefB_nil_right n.data

/-! ### Claims -/

/-- C1, counterexample: the query `"!!!"` normalizes to the empty string, yet
the search runs and returns the full (non-empty) dataset, because the guard
at main.py line 117 tests the raw query for emptiness, not its normalized
form, and the empty normalized query is a substring of every candidate. -/
theorem punct_only_query_full_scan_cex :
    normalize "!!!" = "" ∧ searchOutcome exDataset "!!!" = some exDataset.rows ∧
      exDataset.rows ≠ [] := by
  refine ⟨by decide, ?_, by decide⟩
  have h : normalize "!!!" = "" := by decide
  rw [searchOutcome, if_neg (by decide), matched_rows_of_norm_empty h]

/-- C1, amended: only a raw-empty query string yields the "no search active"
outcome; a non-empty query whose normalized form is empty is matched against
every row and yields the full dataset. -/
theorem empty_query_guard_amended :
    (∀ d : Dataset, searchOutcome d "" = none) ∧
    (∀ (d : Dataset) (q : String), q ≠ "" → normalize q = "" →
      searchOutcome d q = some d.rows) := by
  constructor
  · intro d
    rw [searchOutcome, if_pos rfl]
  · intro d q hq hnq
    rw [searchOutcome, if_neg hq, matched_rows_of_norm_empty hnq]

/-- C1, witness for the amended claim at a concrete dataset and query. -/
theorem empty_query_guard_amended_w :
    ("--" ≠ "" ∧ normalize "--" = "") ∧ searchOutcome exDataset "--" = some exDataset.rows :=
  ⟨⟨by decide, by decide⟩, empty_query_guard_amended.2 exDataset "--" (by decide) (by decide)⟩

/-- C5: for a query with non-empty normalized form, the search loop returns
exactly the records satisfying the spec's substring predicate, in dataset
iteration order, without deduplication (it is an order-preserving filter). -/
theorem match_exact_filter (d : Dataset) (q : String) (h : normalize q ≠ "") :
    matched_rows d q = d.rows.filter (specMatch q) := by
  rw [matched_rows_eq_filter]
  rfl

/-- C5, witness: the spec's end-to-end example dataset and query. -/
theorem match_exact_filter_w :
    normalize "press1" ≠ "" ∧
      matched_rows exDataset "press1" = exDataset.rows.filter (specMatch "press1") :=
  ⟨by decide, match_exact_filter exDataset "press1" (by decide)⟩

/-- C6: `normalize` is a total function (a Lean function), idempotent, and
case/punctuation-insensitive on the spec's example:
`normalize "AB-12" = normalize "ab12" = "ab12"`. -/
theorem normalize_idempotent_insensitive :
    (∀ s : String, normalize (normalize s) = normalize s) ∧
      normalize "AB-12" = "ab12" ∧ normalize "ab12" = "ab12" :=
  ⟨normalize_normalize, by decide, by decide⟩

/-- C8: the suggestion filter returns at most 10 suggestions, and the result
is a sublist of the input (every element drawn from the input, in the same
relative order). -/
theorem filter_suggestions_cap_order (S : List String) (q : String) :
    (filterSuggestions S q).length ≤ 10 ∧ List.Sublist (filterSuggestions S q) S :=
  ⟨List.length_take_le _ _, (List.take_sublist _ _).trans (List.filter_sublist _)⟩

/-- C2, counterexample: on a dataset with neither required column, the row
matcher raises no schema error at all; it treats the missing columns as empty
strings, so the query "by" (a substring of the composed `"" ++ " by " ++ ""`
candidate) silently matches every row. -/
theorem matcher_missing_columns_silent_cex :
    matched_rows bareDataset "by" = bareDataset.rows ∧ bareDataset.rows ≠ [] ∧
      bareDataset.cols.contains "Machine Name" = false ∧
      bareDataset.cols.contains "Problem" = false := by
  refine ⟨?_, by decide, by decide, by decide⟩
  rw [matched_rows_eq_filter]
  apply List.filter_eq_self.mpr
  intro r hr
  have hrr : r = [("Other", some "x")] := by simpa [bareDataset] using hr
  subst hrr
  decide

/-- C2, amended: the suggestion builder does fail with a schema error naming
the first missing required column ("Machine Name" at main.py line 92, then
"Problem" at line 96), but the row matcher never fails: `row.get(col, '')`
silently treats a missing column as the empty string, so on a dataset missing
both columns the search degenerates to testing the query against the constant
string `" by "`. -/
theorem schema_error_amended :
    (∀ d : Dataset, d.cols.contains "Machine Name" = false →
      all_suggestions d = Except.error "Machine Name") ∧
    (∀ d : Dataset, d.cols.contains "Machine Name" = true →
      d.cols.contains "Problem" = false → all_suggestions d = Except.error "Problem") ∧
    (∀ (d : Dataset) (q : String), DatasetWF d →
      d.cols.contains "Machine Name" = false → d.cols.contains "Problem" = false →
      matched_rows d q =
        if isSubstrB (normalize q) (normalize " by ") = true then d.rows else []) := by
  refine ⟨?_, ?_, ?_⟩
  · intro d hm
    rw [all_suggestions, if_pos hm]
  · intro d hm hp
    rw [all_suggestions, if_neg (by rw [hm]; simp), if_pos hp]
  · intro d q hwf hm hp
    have hrow : ∀ r ∈ d.rows,
        rowMatchB (normalize q) r = isSubstrB (normalize q) (normalize " by ") := by
      intro r hr
      have hmn : r.lookup "Machine Name" = none := by
        cases hcase : r.lookup "Machine Name" with
        | none => rfl
        | some v =>
          exact absurd (hwf r hr _ (mem_of_lookup_some hcase)) (by rw [hm]; simp)
      have hpn : r.lookup "Problem" = none := by
        cases hcase : r.lookup "Problem" with
        | none => rfl
        | some v =>
          exact absurd (hwf r hr _ (mem_of_lookup_some hcase)) (by rw [hp]; simp)
      have g1 : getD r "Machine Name" "" = "" := by unfold getD; rw [hmn]
      have g2 : getD r "Problem" "" = "" := by unfold getD; rw [hpn]
      have gc : ("" ++ " by " ++ "" : String) = " by " := by decide
      simp only [rowMatchB, g1, g2, gc]
      cases hA : isSubstrB (normalize q) (normalize "") with
      | false => simp
      | true =>
        have hnil : (normalize q).data = [] := isSubstrB_empty_hay.mp hA
        rw [isSubstrB_of_nil hnil]
        simp
    rw [matched_rows_eq_filter]
    by_cases hb : isSubstrB (normalize q) (normalize " by ") = true
    · rw [if_pos hb]
      apply List.filter_eq_self.mpr
      intro r hr
      rw [hrow r hr, hb]
    · rw [if_neg hb]
      apply List.filter_eq_nil_iff.mpr
      intro r hr
      rw [hrow r hr]
      exact hb

/-- C2, witness for the amended claim: the error on a concrete column-less
dataset, and the silent full-dataset match for the query "by" on it. -/
theorem schema_error_amended_w :
    all_suggestions bareDataset = Except.error "Machine Name" ∧
      matched_rows bareDataset "zz" =
        (if isSubstrB (normalize "zz") (normalize " by ") = true
          then bareDataset.rows else []) :=
  ⟨schema_error_amended.1 bareDataset (by decide),
   schema_error_amended.2.2 bareDataset "zz" (by decide) (by decide) (by decide)⟩

/-- C3, counterexample: a connection-level failure and a reply without the
`response` field both end the interaction in a crash (an uncaught exception),
not in any displayed "explanation unavailable" outcome. -/
theorem llm_failure_crashes_cex :
    explainStep none "prompt" = Outcome.crashed PyError.connectionError ∧
      explainStep (some [("done", "true")]) "prompt"
        = Outcome.crashed (PyError.keyError "response") := by
  exact ⟨rfl, by decide⟩

/-- C3, amended: `query_mistral` performs no error handling and its call site
catches nothing, so a connection failure propagates the connection exception
and a reply without the `response` field propagates `KeyError("response")`,
crashing the interaction; the two failure kinds are distinct exceptions, and
text is displayed only when the call genuinely succeeded. -/
theorem llm_failure_amended :
    (∀ p : String, explainStep none p = Outcome.crashed PyError.connectionError) ∧
    (∀ (p : String) (body : List (String × String)), body.lookup "response" = none →
      explainStep (some body) p = Outcome.crashed (PyError.keyError "response")) ∧
    (∀ (server : ServerBehavior) (p t : String),
      explainStep server p = Outcome.displayed t → query_mistral server p = Except.ok t) ∧
    PyError.connectionError ≠ PyError.keyError "response" := by
  refine ⟨fun p => rfl, ?_, ?_, by decide⟩
  · intro p body h
    simp [explainStep, query_mistral, h]
  · intro server p t h
    unfold explainStep at h
    cases hq : query_mistral server p with
    | ok u =>
      rw [hq] at h
      simp only [Outcome.displayed.injEq] at h
      rw [h]
    | error e =>
      rw [hq] at h
      simp at h

/-- C3, witness for the amended claim at a concrete malformed reply. -/
theorem llm_failure_amended_w :
    ([("done", "true")] : List (String × String)).lookup "response" = none ∧
      explainStep (some [("done", "true")]) "p" = Outcome.crashed (PyError.keyError "response") :=
  ⟨by decide, llm_failure_amended.2.1 "p" [("done", "true")] (by decide)⟩

/-- C7: with both required columns present, the suggestion list is exactly the
first-seen-deduplicated non-missing machine names followed by the
first-seen-deduplicated non-missing (Problem, Machine Name) pairs, each
formatted "... by ..."; both groups are duplicate-free. -/
theorem suggestions_structure (d : Dataset)
    (h1 : d.cols.contains "Machine Name" = true)
    (h2 : d.cols.contains "Problem" = true) :
    all_suggestions d = Except.ok (dedupFirst (machineNameVals d) ++
      (dedupFirst (problemPairs d)).map (fun pm => pm.1 ++ " by " ++ pm.2)) ∧
    (dedupFirst (machineNameVals d)).Nodup ∧ (dedupFirst (problemPairs d)).Nodup := by
  refine ⟨?_, nodup_dedupFirst _, nodup_dedupFirst _⟩
  rw [all_suggestions, if_neg (by rw [h1]; simp), if_neg (by rw [h2]; simp)]

/-- C7, witness at the spec's example dataset. -/
theorem suggestions_structure_w :
    (exDataset.cols.contains "Machine Name" = true ∧
      exDataset.cols.contains "Problem" = true) ∧
    (all_suggestions exDataset = Except.ok (dedupFirst (machineNameVals exDataset) ++
      (dedupFirst (problemPairs exDataset)).map (fun pm => pm.1 ++ " by " ++ pm.2)) ∧
     (dedupFirst (machineNameVals exDataset)).Nodup ∧
     (dedupFirst (problemPairs exDataset)).Nodup) :=
  ⟨⟨by decide, by decide⟩, suggestions_structure exDataset (by decide) (by decide)⟩

/-- C9: a row with a missing (`NaN`) Machine Name or Problem value contributes
the normalized string "nan" to matching, so every query whose normalized form
is a substring of "nan" matches such a row. -/
theorem nan_value_matches (d : Dataset) (r : Record) (q : String)
    (hr : r ∈ d.rows)
    (hmiss : r.lookup "Machine Name" = some none ∨ r.lookup "Problem" = some none)
    (hq : isSubstrB (normalize q) "nan" = true) :
    r ∈ matched_rows d q := by
  rw [matched_rows_eq_filter]
  refine List.mem_filter.mpr ⟨hr, ?_⟩
  have hnan : normalize "nan" = "nan" := by decide
  rcases hmiss with hm | hm
  · have g : getD r "Machine Name" "" = "nan" := by unfold getD; rw [hm]; rfl
    simp [rowMatchB, g, hnan, hq]
  · have g : getD r "Problem" "" = "nan" := by unfold getD; rw [hm]; rfl
    simp [rowMatchB, g, hnan, hq]

/-- C10: a non-empty filtered suggestion list implies a non-empty match set:
every matching suggestion is derived from some dataset row whose normalized
machine name or composed "Problem by Machine Name" string contains the
normalized query, and that row itself matches. -/
theorem suggestion_implies_row_match (d : Dataset) (q : String) (S : List String)
    (hS : all_suggestions d = Except.ok S)
    (hnq : normalize q ≠ "")
    (hne : suggestionMatches S q ≠ []) :
    matched_rows d q ≠ [] := by
  obtain ⟨s, hs⟩ := List.exists_mem_of_ne_nil _ hne
  obtain ⟨hsS, hsub⟩ := List.mem_filter.mp hs
  have hSval : S = dedupFirst (machineNameVals d) ++
      (dedupFirst (problemPairs d)).map (fun pm => pm.1 ++ " by " ++ pm.2) := by
    unfold all_suggestions at hS
    by_cases h1 : d.cols.contains "Machine Name" = false
    · rw [if_pos h1] at hS
      exact absurd hS (by simp)
    · rw [if_neg h1] at hS
      by_cases h2 : d.cols.contains "Problem" = false
      · rw [if_pos h2] at hS
        exact absurd hS (by simp)
      · rw [if_neg h2] at hS
        exact (Except.ok.inj hS).symm
  rw [hSval] at hsS
  rcases List.mem_append.mp hsS with hmem | hmem
  · have hsv : s ∈ machineNameVals d := mem_dedupFirst.mp hmem
    obtain ⟨c, hc, hc2⟩ := List.mem_filterMap.mp hsv
    obtain ⟨r, hr, hrc⟩ := List.mem_map.mp hc
    have hcs : cellOf r "Machine Name" = some s := by rw [hrc]; exact hc2
    have hlk : r.lookup "Machine Name" = some (some s) := join_eq_some hcs
    have g : getD r "Machine Name" "" = s := by unfold getD; rw [hlk]; rfl
    apply List.ne_nil_of_mem (a := r)
    rw [matched_rows_eq_filter]
    refine List.mem_filter.mpr ⟨hr, ?_⟩
    simp [rowMatchB, g, hsub]
  · obtain ⟨pm, hpm, hpms⟩ := List.mem_map.mp hmem
    have hpv : pm ∈ problemPairs d := mem_dedupFirst.mp hpm
    obtain ⟨pc, hpc, hpc2⟩ := List.mem_filterMap.mp hpv
    obtain ⟨r, hr, hrc⟩ := List.mem_map.mp hpc
    rcases pc with ⟨pcp, pcm⟩
    rcases pcp with _ | p
    · simp at hpc2
    rcases pcm with _ | m
    · simp at hpc2
    have hpm2 : pm = (p, m) := by simpa using hpc2.symm
    subst hpm2
    injection hrc with hcp hcm
    have hlkp : r.lookup "Problem" = some (some p) := join_eq_some hcp
    have hlkm : r.lookup "Machine Name" = some (some m) := join_eq_some hcm
    have gp : getD r "Problem" "" = p := by unfold getD; rw [hlkp]; rfl
    have gm : getD r "Machine Name" "" = m := by unfold getD; rw [hlkm]; rfl
    apply List.ne_nil_of_mem (a := r)
    rw [matched_rows_eq_filter]
    refine List.mem_filter.mpr ⟨hr, ?_⟩
    have hc : getD r "Problem" "" ++ " by " ++ getD r "Machine Name" "" = s := by
      rw [gp, gm]
      exact hpms
    simp [rowMatchB, hc, hsub]

/-- C10, witness: the query "overheat" on the spec's example dataset has a
matching suggestion, hence a non-empty match set. -/
theorem suggestion_implies_row_match_w :
    (all_suggestions exDataset = Except.ok ["Press-1", "Lathe-2",
        "Overheat by Press-1", "Jam by Press-1", "Overheat by Lathe-2"] ∧
      normalize "overheat" ≠ "" ∧
      suggestionMatches ["Press-1", "Lathe-2", "Overheat by Press-1",
        "Jam by Press-1", "Overheat by Lathe-2"] "overheat" ≠ []) ∧
    matched_rows exDataset "overheat" ≠ [] :=
  ⟨⟨by decide, by decide, by decide⟩,
   suggestion_implies_row_match exDataset "overheat"
     ["Press-1", "Lathe-2", "Overheat by Press-1", "Jam by Press-1",
      "Overheat by Lathe-2"] (by decide) (by decide) (by decide)⟩

/-- C4, counterexample: a two-row match set whose second row has a missing
Problem value yields a frequency table whose counts sum to 1, not to the
match count 2, because `value_counts()` drops the missing value. -/
theorem freq_counts_sum_cex :
    (matched_rows nanDataset "press").length = 2 ∧
      sumCounts (value_counts (((matched_rows nanDataset "press").map
        (fun r => cellOf r "Problem")).filterMap id)) = 1 := by
  exact ⟨by decide, by decide⟩

/-- C4, amended: for N > 1 matched rows with the Problem column present, the
prompt embeds the rendered frequency table of Problem values and the tabular
rendering of every matched row; the table is sorted descending by count, and
its counts sum to the number of matched rows with a non-missing Problem value
(equal to N exactly when every matched row has one). -/
theorem multi_match_prompt_amended (d : Dataset) (q : String)
    (hcol : d.cols.contains "Problem" = true)
    (hN : 1 < (matched_rows d q).length) :
    user_prompt q d.cols (matched_rows d q)
        = Except.ok (promptMulti q d.cols (matched_rows d q)) ∧
    (∃ a b, promptMulti q d.cols (matched_rows d q)
        = a ++ renderCounts (value_counts (((matched_rows d q).map
            (fun r => cellOf r "Problem")).filterMap id)) ++ b) ∧
    (∃ a b, promptMulti q d.cols (matched_rows d q)
        = a ++ renderTable d.cols (matched_rows d q) ++ b) ∧
    (∀ r ∈ matched_rows d q, ∃ a b, promptMulti q d.cols (matched_rows d q)
        = a ++ renderRow d.cols r ++ b) ∧
    sumCounts (value_counts (((matched_rows d q).map
        (fun r => cellOf r "Problem")).filterMap id))
      = (((matched_rows d q).map (fun r => cellOf r "Problem")).filterMap id).length ∧
    descOK (value_counts (((matched_rows d q).map
        (fun r => cellOf r "Problem")).filterMap id)) = true ∧
    ((∀ r ∈ matched_rows d q, (cellOf r "Problem").isSome = true) →
      sumCounts (value_counts (((matched_rows d q).map
          (fun r => cellOf r "Problem")).filterMap id)) = (matched_rows d q).length) := by
  refine ⟨?_, ?_, ?_, ?_, sumCounts_value_counts _, descOK_value_counts _, ?_⟩
  · unfold user_prompt
    rw [if_neg (by simp; omega), if_neg (by rw [hcol]; simp)]
  · refine ⟨"The query \x27" ++ q ++ "\x27 matches " ++
      Nat.repr (matched_rows d q).length ++
      " rows. Analyze the problems, starting with the most common one. " ++
      "Provide possible causes, suggestions, and order them by frequency.\n\n" ++
      "Problem summary:\n",
      "\n\nDetails of matches:\n" ++ renderTable d.cols (matched_rows d q), ?_⟩
    simp [promptMulti, String.append_assoc]
  · refine ⟨"The query \x27" ++ q ++ "\x27 matches " ++
      Nat.repr (matched_rows d q).length ++
      " rows. Analyze the problems, starting with the most common one. " ++
      "Provide possible causes, suggestions, and order them by frequency.\n\n" ++
      "Problem summary:\n" ++
      renderCounts (value_counts (((matched_rows d q).map
        (fun r => cellOf r "Problem")).filterMap id)) ++
      "\n\nDetails of matches:\n", "", ?_⟩
    simp [promptMulti, String.append_assoc, String.append_empty]
  · intro r hr
    have hmem : renderRow d.cols r ∈ (matched_rows d q).map (renderRow d.cols) :=
      List.mem_map_of_mem (renderRow d.cols) hr
    obtain ⟨a1, b1, hj⟩ := joinSep_decomp "\n" _ _ hmem
    refine ⟨"The query \x27" ++ q ++ "\x27 matches " ++
      Nat.repr (matched_rows d q).length ++
      " rows. Analyze the problems, starting with the most common one. " ++
      "Provide possible causes, suggestions, and order them by frequency.\n\n" ++
      "Problem summary:\n" ++
      renderCounts (value_counts (((matched_rows d q).map
        (fun r => cellOf r "Problem")).filterMap id)) ++
      "\n\nDetails of matches:\n" ++ joinSep " " d.cols ++ "\n" ++ a1, b1, ?_⟩
    simp only [promptMulti, renderTable]
    rw [hj]
    simp [String.append_assoc]
  · intro hall
    rw [sumCounts_value_counts]
    rw [length_filterMap_id_all_some _ ?_, List.length_map]
    intro c hcm
    obtain ⟨r, hr, hrc⟩ := List.mem_map.mp hcm
    rw [← hrc]
    exact hall r hr

/-- C4, witness: the amended prompt equation holds on the spec's example
dataset for the query "press1" (two matched rows). -/
theorem multi_match_prompt_amended_w :
    (exDataset.cols.contains "Problem" = true ∧
      1 < (matched_rows exDataset "press1").length) ∧
    user_prompt "press1" exDataset.cols (matched_rows exDataset "press1")
      = Except.ok (promptMulti "press1" exDataset.cols (matched_rows exDataset "press1")) :=
  ⟨⟨by decide, by decide⟩,
   (multi_match_prompt_amended exDataset "press1" (by decide) (by decide)).1⟩

/-- C9, witness: the row with the missing Problem value is matched by the
query "nan" in the concrete dataset. -/
theorem nan_value_matches_w :
    (nanRow ∈ nanDataset.rows ∧ nanRow.lookup "Problem" = some none ∧
      isSubstrB (normalize "nan") "nan" = true) ∧
    nanRow ∈ matched_rows nanDataset "nan" :=
  ⟨⟨by decide, by decide, by decide⟩,
   nan_value_matches nanDataset nanRow "nan" (by decide) (Or.inr (by decide)) (by decide)⟩

end Flender
